import Mathlib

/-!
Shallow embedding of the book-cabinet control core (CoreXY kinematics, motor
driver, path planner, sensor filter, motion algorithms, calibration store and
remote-library helpers) together with theorems settling the specification
claims about it.  Each definition is translated from the corresponding Python
source in `bookcabinet/`; the file and line references are given in the doc
comments.
-/

namespace BookCabinet

/-! ### CoreXY kinematics — `bookcabinet/mechanics/corexy.py` -/

/-- Direction-sign map of the CoreXY kinematics, as stored under the
`kinematics` key of the calibration (`corexy.py` lines 19-24). -/
structure Kinematics where
  x_plus_dir_a : Int
  x_plus_dir_b : Int
  y_plus_dir_a : Int
  y_plus_dir_b : Int
deriving DecidableEq

/-- Default sign map from `corexy.py` `reload_calibration` and from
`calibration.py` `_default_data` (both give the same four values). -/
def defaultKinematics : Kinematics :=
  { x_plus_dir_a := 1, x_plus_dir_b := -1, y_plus_dir_a := 1, y_plus_dir_b := 1 }

/-- `CoreXY.calculate_ab_steps` (`corexy.py` lines 37-53):
`steps_a = dx*x_plus_dir_a + dy*y_plus_dir_a`,
`steps_b = dx*x_plus_dir_b + dy*y_plus_dir_b`. -/
def calculate_ab_steps (kin : Kinematics) (dx dy : Int) : Int × Int :=
  (dx * kin.x_plus_dir_a + dy * kin.y_plus_dir_a,
   dx * kin.x_plus_dir_b + dy * kin.y_plus_dir_b)

/-- `CoreXY.inverse_kinematics` (`corexy.py` lines 55-59):
`dx = (steps_a - steps_b) // 2`, `dy = (steps_a + steps_b) // 2` with
Python floor division, which `Int.fdiv` implements. -/
def inverse_kinematics (steps_a steps_b : Int) : Int × Int :=
  ((steps_a - steps_b).fdiv 2, (steps_a + steps_b).fdiv 2)

/-- The per-motor step translation hard-coded inside `Motors.move_xy`
(`motors.py` lines 32-33): `steps_a = dx + dy`, `steps_b = -dx + dy`.
Note the motor driver does not consult `CoreXY.calculate_ab_steps` or the
calibration sign map. -/
def motors_ab_steps (dx dy : Int) : Int × Int :=
  (dx + dy, -dx + dy)

/-- The calibration validator's rule for one kinematics sign
(`calibration.py` lines 220-224): the value must be present and in `[-1, 1]`;
an absent key (`None`) fails. -/
def signOk : Option Int → Bool
  | some v => v = -1 || v = 1
  | none => false

/-! ### Motor driver — `bookcabinet/hardware/motors.py` -/

/-- In-memory state of the `Motors` singleton: the cartesian position and the
`is_moving` busy flag (`motors.py` lines 11-14; the tray coordinate is not
needed by the claims). -/
structure MotorsState where
  x : Int
  y : Int
  isMoving : Bool
deriving DecidableEq

/-- `Motors.stop` (`motors.py` lines 100-104): clears the busy flag and holds
the three STEP lines low.  It sets no flag that the pulse loop of a running
`move_xy` would read. -/
def Motors.stop (st : MotorsState) : MotorsState :=
  { st with isMoving := false }

/-- One call of `Motors.move_xy` (`motors.py` lines 23-62), in the hardware
(non-mock) path.  Returns `(result, final state, pulse pairs emitted)`.

`stopAt = some i` models an asynchronous `Motors.stop()` request arriving
before pulse iteration `i` of the loop at lines 47-55.  `stop()` clears
`is_moving` and writes the STEP pins low once, but the pulse loop neither
reads `is_moving` nor re-checks any condition, so the `stopAt` parameter
influences neither the pulses emitted, nor the position commit at lines 57-58,
nor the returned value: the loop always runs `max(|steps_a|, |steps_b|)`
iterations and the call returns `True`. -/
def move_xy (st : MotorsState) (targetX targetY : Int) (stopAt : Option Nat) :
    Bool × MotorsState × Nat :=
  if st.isMoving then (false, st, 0)
  else
    let dx := targetX - st.x
    let dy := targetY - st.y
    let steps_a := dx + dy
    let steps_b := -dx + dy
    let maxSteps := max steps_a.natAbs steps_b.natAbs
    let _ := stopAt
    (true, { x := targetX, y := targetY, isMoving := false }, maxSteps)

/-! ### Path planner — `bookcabinet/mechanics/algorithms.py`, class `PathPlanner` -/

/-- `PathPlanner.MAX_DIAGONAL_STEP` (`algorithms.py` line 21). -/
def MAX_DIAGONAL_STEP : Nat := 500

/-- Interior waypoint coordinate of a subdivided leg from `s` to `e` with
`step_count = k` (`algorithms.py` lines 73-77 and 84-89): Python computes
`int(s + ((e - s) / step_count) * i)` in double precision; the exact value is
the rational `(s*k + (e-s)*i) / k` truncated toward zero, which `Int.tdiv`
implements for positive `k`.  (The double-precision evaluation can differ from
the exact truncation by one step when the exact value is an integer; the
spacing bound proved below has slack for that.) -/
def legPoint (s e : Int) (k : Nat) (i : Nat) : Int :=
  (s * (k : Int) + (e - s) * (i : Int)).tdiv (k : Int)

/-- The interior waypoints `for i in range(1, step_count)` of one leg. -/
def legIntermediates (s e : Int) (k : Nat) : List Int :=
  (List.range' 1 (k - 1)).map (legPoint s e k)

/-- `PathPlanner.plan_path` (`algorithms.py` lines 47-94).  For nearby targets
(both axis deltas strictly below `MAX_DIAGONAL_STEP`) it emits the single end
waypoint; otherwise it emits the Y leg (when `dy > 500`, subdivided into
`max(1, dy // 2000)` equal parts, ending at `(sx, ey)`), then the X leg
interior points (when `dx > 500`, at `y = ey`), then the final `(ex, ey)`. -/
def plan_path (sx sy ex ey : Int) : List (Int × Int) :=
  let dx := (ex - sx).natAbs
  let dy := (ey - sy).natAbs
  if dx < MAX_DIAGONAL_STEP ∧ dy < MAX_DIAGONAL_STEP then [(ex, ey)]
  else
    let yPart : List (Int × Int) :=
      if MAX_DIAGONAL_STEP < dy then
        let k := max 1 (dy / 2000)
        ((legIntermediates sy ey k).map (fun iy => (sx, iy))) ++ [(sx, ey)]
      else []
    let xPart : List (Int × Int) :=
      if MAX_DIAGONAL_STEP < dx then
        let k := max 1 (dx / 2000)
        (legIntermediates sx ex k).map (fun ix => (ix, ey))
      else []
    yPart ++ (xPart ++ [(ex, ey)])

/-- Consecutive-waypoint spacing check: starting from `p`, every consecutive
pair of waypoints differs by at most `b` steps on each axis. -/
def spacedWithin (b : Nat) : Int × Int → List (Int × Int) → Bool
  | _, [] => true
  | p, q :: rest =>
      (decide ((q.1 - p.1).natAbs ≤ b) && decide ((q.2 - p.2).natAbs ≤ b)) &&
      spacedWithin b q rest

/-- One-dimensional version of `spacedWithin`, used to reason about a single
leg of the planned path. -/
def spaced1 (b : Nat) : Int → List Int → Bool
  | _, [] => true
  | p, q :: rest => decide ((q - p).natAbs ≤ b) && spaced1 b q rest

/-! ### Sensor filter — `bookcabinet/hardware/sensors.py` -/

/-- Raw oversampled percent-HIGH readings of the six optical limit switches,
as returned by `Sensors.read_all` (`sensors.py` lines 89-91): each entry is
`_read_percent`, an integer percentage in `[0, 100]`. -/
structure SensorPercents where
  x_begin : Nat
  x_end : Nat
  y_begin : Nat
  y_end : Nat
  tray_begin : Nat
  tray_end : Nat
deriving DecidableEq

/-- `SENSOR_THRESHOLD_HIGH` (`sensors.py` line 18). -/
def SENSOR_THRESHOLD_HIGH : Nat := 98

/-- `SENSOR_THRESHOLD_LOW` (`sensors.py` line 19). -/
def SENSOR_THRESHOLD_LOW : Nat := 95

/-- `SENSOR_DEBOUNCE` (`sensors.py` line 20). -/
def SENSOR_DEBOUNCE : Nat := 5

/-- Per-sensor hysteresis-and-debounce filter state
(`sensors.py` lines 38-40): the committed boolean `_state`, the pending
candidate `_pending` (initially `None`) and the stability counter `_counter`. -/
structure FilterState where
  state : Bool
  pending : Option Bool
  counter : Nat
deriving DecidableEq

/-- Initial filter state of every sensor (`sensors.py` lines 38-40). -/
def initialFilterState : FilterState :=
  { state := false, pending := none, counter := 0 }

/-- `Sensors._update_state` (`sensors.py` lines 55-75): hysteresis thresholds
98/95 select the desired state (unchanged inside the band), and a transition
commits only after `SENSOR_DEBOUNCE` consecutive identical desired states. -/
def update_state (st : FilterState) (percent : Nat) : FilterState :=
  let desired :=
    if SENSOR_THRESHOLD_HIGH ≤ percent then true
    else if percent ≤ SENSOR_THRESHOLD_LOW then false
    else st.state
  let pending := if st.pending = some desired then st.pending else some desired
  let counter := if st.pending = some desired then st.counter + 1 else 1
  let state :=
    if SENSOR_DEBOUNCE ≤ counter ∧ st.state ≠ desired then desired else st.state
  { state := state, pending := pending, counter := counter }

/-- Filter state after `n` consecutive reads of the same raw percentage,
each processed by `Sensors._update_state` (as `is_triggered` /
`read_all_triggered` would). -/
def filterAfterReads (percent : Nat) : Nat → FilterState
  | 0 => initialFilterState
  | n + 1 => update_state (filterAfterReads percent n) percent

/-- The pre-waypoint limit-switch rejection of `Algorithms._safe_move_xy`
(`algorithms.py` lines 181-206), hardware (non-mock) path.  The supervisor
calls `sensors.read_all()` — the RAW percent dictionary, not the filtered
`read_all_triggered()` — and tests each percentage for Python truthiness, so
any nonzero percent counts as a tripped switch.  Returns `true` when the move
to `point` from `cur` is rejected (the source then calls `motors.stop()`,
emits error code 10 and returns `False`). -/
def preWaypointError10 (curX curY pointX pointY : Int) (s : SensorPercents) : Bool :=
  (decide (curX < pointX) && decide (s.x_end ≠ 0)) ||
  (decide (pointX < curX) && decide (s.x_begin ≠ 0)) ||
  (decide (curY < pointY) && decide (s.y_end ≠ 0)) ||
  (decide (pointY < curY) && decide (s.y_begin ≠ 0))

/-! ### INIT homing loop — `bookcabinet/mechanics/algorithms.py`, `init_home` -/

/-- Outcome of one axis-homing loop of `Algorithms.init_home`. -/
inductive HomeResult where
  | done (pos : Int)
  | stopped
deriving DecidableEq

/-- The per-axis homing loop of `Algorithms.init_home`, hardware path
(`algorithms.py` lines 327-331 for X, 339-343 for Y):

`while not sensors.read(axis_begin): if stop_requested: return False;
 move_xy(pos - 100, ...)`, then `position := 0`.

`readPercent n` is the raw percentage polled at iteration `n` (truthy when
nonzero) and `stopRequested n` the stop flag at iteration `n`.  The source
loop has NO iteration or step budget; `fuel` only bounds how far we unroll it,
and `none` means the loop is still running after `fuel` iterations. -/
def init_home_axis_loop (readPercent : Nat → Nat) (stopRequested : Nat → Bool) :
    Nat → Nat → Int → Option HomeResult
  | 0, _, _ => none
  | fuel + 1, n, pos =>
      if readPercent n ≠ 0 then some (HomeResult.done 0)
      else if stopRequested n then some HomeResult.stopped
      else init_home_axis_loop readPercent stopRequested fuel (n + 1) (pos - 100)

/-! ### RFID / UID helpers — `bookcabinet/utils/irbis_helpers.py` -/

/-- Python `str.strip` whitespace class (also the `\s` class of the regex in
`normalize_rfid`, restricted to ASCII). -/
def isPyWhitespace (c : Char) : Bool :=
  c = ' ' || c = '\t' || c = '\n' || c = '\x0d' || c = '\x0b' || c = '\x0c'

/-- A character removed by `re.sub(r'[\s\-:]+', '', ...)` in `normalize_rfid`. -/
def isSepChar (c : Char) : Bool :=
  isPyWhitespace c || c = '-' || c = ':'

/-- Membership in the hex alphabet kept by the final filter of
`normalize_rfid` (`irbis_helpers.py` line 27). -/
def isHexUpper (c : Char) : Bool :=
  c = '0' || c = '1' || c = '2' || c = '3' || c = '4' || c = '5' || c = '6' ||
  c = '7' || c = '8' || c = '9' || c = 'A' || c = 'B' || c = 'C' || c = 'D' ||
  c = 'E' || c = 'F'

/-- Python `str.strip()`: drop leading and trailing whitespace. -/
def pyStrip (l : List Char) : List Char :=
  ((l.dropWhile isPyWhitespace).reverse.dropWhile isPyWhitespace).reverse

/-- Remove a leading `"0X"` (`irbis_helpers.py` lines 24-25; the string has
already been upper-cased at this point). -/
def strip0X : List Char → List Char
  | '0' :: 'X' :: rest => rest
  | l => l

/-- `normalize_rfid` (`irbis_helpers.py` lines 9-29): strip, upper-case,
remove whitespace and `-`/`:` separators, remove a `0X` prefix, keep only hex
characters; `None` for an empty input or when nothing is left. -/
def normalize_rfid (l : List Char) : Option (List Char) :=
  if l = [] then none
  else
    let s1 := (pyStrip l).map Char.toUpper
    let s2 := s1.filter (fun c => !(isSepChar c))
    let s3 := strip0X s2
    let s4 := s3.filter isHexUpper
    if s4 = [] then none else some s4

/-- `insert_every2` (`irbis_helpers.py` lines 32-38): join the 2-character
chunks of the string with the separator. -/
def insert_every2 (sep : Char) : List Char → List Char
  | a :: b :: c :: rest => a :: b :: sep :: insert_every2 sep (c :: rest)
  | l => l

/-- The 2-character chunks of a string, as used by `reverse_by_byte`. -/
def chunks2 : List Char → List (List Char)
  | [] => []
  | [a] => [[a]]
  | a :: b :: rest => [a, b] :: chunks2 rest

/-- `reverse_by_byte` (`irbis_helpers.py` lines 41-48): reverse the byte
(2-character) chunks. -/
def reverse_by_byte (l : List Char) : List Char :=
  (chunks2 l).reverse.flatten

/-- Value of one uppercase hex digit, as `int(  , 16)` reads it. -/
def hexDigitVal (c : Char) : Nat :=
  if c = '0' then 0 else if c = '1' then 1 else if c = '2' then 2
  else if c = '3' then 3 else if c = '4' then 4 else if c = '5' then 5
  else if c = '6' then 6 else if c = '7' then 7 else if c = '8' then 8
  else if c = '9' then 9 else if c = 'A' then 10 else if c = 'B' then 11
  else if c = 'C' then 12 else if c = 'D' then 13 else if c = 'E' then 14
  else if c = 'F' then 15 else 0

/-- Python `int(hex_str, 16)` on an uppercase hex string. -/
def hexToNat (l : List Char) : Nat :=
  l.foldl (fun acc c => acc * 16 + hexDigitVal c) 0

/-- Python `str(n)` for a nonnegative integer. -/
def natToDec (n : Nat) : List Char :=
  Nat.toDigits 10 n

/-- Python `str.zfill(width)` on a digit string (no sign handling needed). -/
def zfill (width : Nat) (l : List Char) : List Char :=
  List.replicate (width - l.length) '0' ++ l

/-- `make_uid_variants` (`irbis_helpers.py` lines 51-92), in source order: the
normalized hex; its `:` and `-` separated forms when at least 4 characters;
the byte-reversed hex and its separated forms when different; the decimal
value and its 10-wide zero-padded form; the byte-reversed decimal forms when
different.  `int(hex_only, 16)` cannot raise here because `normalize_rfid`
returns only nonempty hex strings, so the `except ValueError` arm is dead. -/
def make_uid_variants (uid : List Char) : List (List Char) :=
  match normalize_rfid uid with
  | none => if uid = [] then [] else [uid]
  | some hex_only =>
    let seps :=
      if 4 ≤ hex_only.length then
        [insert_every2 ':' hex_only, insert_every2 '-' hex_only]
      else []
    let rev_hex := reverse_by_byte hex_only
    let revs :=
      if rev_hex ≠ hex_only then
        [rev_hex, insert_every2 ':' rev_hex, insert_every2 '-' rev_hex]
      else []
    let dec_value := natToDec (hexToNat hex_only)
    let decs := [dec_value, zfill 10 dec_value]
    let rev_decs :=
      if rev_hex ≠ hex_only then
        let rev_dec := natToDec (hexToNat rev_hex)
        if rev_dec ≠ dec_value then [rev_dec, zfill 10 rev_dec] else []
      else []
    hex_only :: (seps ++ revs ++ decs ++ rev_decs)

/-! ### IRBIS records and the return workflow —
`bookcabinet/utils/irbis_helpers.py` and `bookcabinet/irbis/client.py` -/

/-- Insertion-ordered string dictionary keyed by subfield code, the shape
`parse_subfields` returns. -/
abbrev Subfields := List (Char × List Char)

/-- Python dict assignment `d[k] = v`: update in place if the key exists,
otherwise append. -/
def dictSet (d : Subfields) (k : Char) (v : List Char) : Subfields :=
  if d.any (fun p => p.1 = k) then
    d.map (fun p => if p.1 = k then (k, v) else p)
  else d ++ [(k, v)]

/-- Python `d.get(k, default)`. -/
def dictGetD (d : Subfields) (k : Char) (dflt : List Char) : List Char :=
  ((d.find? (fun p => p.1 = k)).map (fun p => p.2)).getD dflt

/-- Python `del d[k]` (no error handling needed: only used after a key test). -/
def dictDel (d : Subfields) (k : Char) : Subfields :=
  d.filter (fun p => p.1 ≠ k)

/-- `parse_subfields` (`irbis_helpers.py` lines 95-133): split the field value
on `^`, skip empty parts, key each part by its upper-cased first character. -/
def parse_subfields (fieldValue : List Char) : Subfields :=
  if fieldValue = [] then []
  else
    (fieldValue.splitOn '^').foldl
      (fun acc part =>
        match part with
        | [] => acc
        | c :: rest => dictSet acc c.toUpper rest)
      []

/-- `format_subfields` (`irbis_helpers.py` lines 136-147): `^` + code + value
for each entry, in dictionary order. -/
def format_subfields (d : Subfields) : List Char :=
  (d.map (fun p => '^' :: p.1 :: p.2)).flatten

/-- An IRBIS record as `parse_record` builds it: a dictionary from tag to the
list of field values (`mfn`/`status`/`version` are not needed by the claims). -/
structure IrbisRecord where
  fields : List (String × List (List Char))
deriving DecidableEq

/-- `get_field_values` (`irbis_helpers.py` lines 223-225):
`record["fields"].get(tag, [])`. -/
def get_field_values (r : IrbisRecord) (tag : String) : List (List Char) :=
  ((r.fields.find? (fun p => p.1 = tag)).map (fun p => p.2)).getD []

/-- The exemplar view built by `find_exemplar_by_rfid`
(`irbis_helpers.py` lines 256-275). -/
structure Exemplar where
  status : List Char
  inventory : List Char
  date : List Char
  location : List Char
  rfid : List Char
  raw : List Char
deriving DecidableEq

/-- Builds the exemplar dictionary of `find_exemplar_by_rfid` from the parsed
`910` field. -/
def mkExemplar (sub : Subfields) (exemplarRfid raw : List Char) : Exemplar :=
  { status := dictGetD sub 'A' [], inventory := dictGetD sub 'B' [],
    date := dictGetD sub 'C' [], location := dictGetD sub 'D' [],
    rfid := exemplarRfid, raw := raw }

/-- The `for field910 in get_field_values(record, "910")` loop of
`find_exemplar_by_rfid` (`irbis_helpers.py` lines 251-277). -/
def findExemplarGo (rfidNormalized : List Char) (variants : List (List Char)) :
    List (List Char) → Option Exemplar
  | [] => none
  | field910 :: rest =>
    let sub := parse_subfields field910
    match normalize_rfid (dictGetD sub 'H' []) with
    | some exemplarRfid =>
      if exemplarRfid = rfidNormalized then
        some (mkExemplar sub exemplarRfid field910)
      else if variants.any (fun v => v.map Char.toUpper = exemplarRfid) then
        some (mkExemplar sub exemplarRfid field910)
      else findExemplarGo rfidNormalized variants rest
    | none => findExemplarGo rfidNormalized variants rest

/-- `find_exemplar_by_rfid` (`irbis_helpers.py` lines 234-277): find the entry
of the repeating `910` field whose normalized `^h` matches the normalized RFID
or one of its upper-cased UID variants. -/
def find_exemplar_by_rfid (r : IrbisRecord) (rfid : List Char) : Option Exemplar :=
  match normalize_rfid rfid with
  | none => none
  | some rfidNormalized =>
    findExemplarGo rfidNormalized (make_uid_variants rfid) (get_field_values r "910")

/-- The `for i, field40 in enumerate(...)` loop of `find_loan_by_rfid`
(`irbis_helpers.py` lines 339-359). -/
def findLoanGo (rfidNormalized : List Char) (variants : List (List Char)) :
    Nat → List (List Char) → Option Nat
  | _, [] => none
  | i, field40 :: rest =>
    let sub := parse_subfields field40
    if dictGetD sub 'F' [] ≠ "******".data then
      findLoanGo rfidNormalized variants (i + 1) rest
    else
      match normalize_rfid (dictGetD sub 'H' []) with
      | none => findLoanGo rfidNormalized variants (i + 1) rest
      | some loanRfid =>
        if loanRfid = rfidNormalized then some i
        else if variants.any (fun v => v.map Char.toUpper = loanRfid) then some i
        else if loanRfid.isSuffixOf rfidNormalized ||
                rfidNormalized.isSuffixOf loanRfid then some i
        else findLoanGo rfidNormalized variants (i + 1) rest

/-- `find_loan_by_rfid` (`irbis_helpers.py` lines 328-359): index of the open
loan entry (`^f = "******"`) of the `40` field whose `^h` matches. -/
def find_loan_by_rfid (r : IrbisRecord) (rfid : List Char) : Option Nat :=
  match normalize_rfid rfid with
  | none => none
  | some rfidNormalized =>
    findLoanGo rfidNormalized (make_uid_variants rfid) 0 (get_field_values r "40")

/-- Environment of one `IrbisClient.return_book` call: the outcomes of the
server interactions it performs, plus the configuration and clock values it
reads (`client.py` lines 535-590).  `readerWithBook` is the result of
`find_reader_with_book` (the `"HIN="` search), `bookByRfid` of
`find_book_by_rfid`, and the two booleans the results of the `write_record`
calls. -/
structure ReturnEnv where
  readerWithBook : Option IrbisRecord
  bookByRfid : Option IrbisRecord
  writeReaderOk : Bool
  writeBookOk : Bool
  nowDate : List Char
  nowTime : List Char
  locationCode : List Char
  username : List Char
deriving DecidableEq

/-- Replace element `i` of a list (Python `fields40[loan_index] = ...`). -/
def listSet (l : List (List Char)) (i : Nat) (v : List Char) : List (List Char) :=
  l.set i v

/-- Record with the `40` field replaced (`reader["fields"]["40"] = fields40`). -/
def setField (r : IrbisRecord) (tag : String) (vals : List (List Char)) : IrbisRecord :=
  if r.fields.any (fun p => p.1 = tag) then
    { fields := r.fields.map (fun p => if p.1 = tag then (tag, vals) else p) }
  else { fields := r.fields ++ [(tag, vals)] }

/-- The book-status mutation of `return_book` (`client.py` lines 579-587): set
`^a` of the first `910` entry whose normalized `^h` equals `rfid` to `"0"`. -/
def setExemplarStatus0 (fields910 : List (List Char)) (rfid : List Char) :
    List (List Char) :=
  match fields910.findIdx? (fun f =>
      normalize_rfid (dictGetD (parse_subfields f) 'H' []) = some rfid) with
  | none => fields910
  | some i =>
    listSet fields910 i
      (format_subfields (dictSet (parse_subfields fields910[i]!) 'A' "0".data))

/-- `IrbisClient.return_book` (`client.py` lines 535-590).  When the `"HIN="`
reader search fails, the book record is consulted: an exemplar at status `"0"`
yields idempotent success, otherwise the call fails.  Otherwise the open loan
entry is closed (drop `^c`; set `^f`, `^2`, `^r`, `^i`; the `None`-filtering
comprehension at line 570 is the identity because parsed subfield values are
never `None`), the reader record is written, and the book status is reset to
`"0"` with the result of that last write ignored. -/
def return_book (env : ReturnEnv) (book_rfid : List Char) : Bool × String :=
  match env.readerWithBook with
  | none =>
    match env.bookByRfid with
    | some book =>
      match find_exemplar_by_rfid book book_rfid with
      | some ex =>
        if ex.status = "0".data then (true, "Книга уже возвращена")
        else (false, "Книга не числится выданной")
      | none => (false, "Книга не числится выданной")
    | none => (false, "Книга не числится выданной")
  | some reader =>
    let rfid := (normalize_rfid book_rfid).getD []
    match find_loan_by_rfid reader rfid with
    | none => (false, "Запись о выдаче не найдена")
    | some loanIndex =>
      let fields40 := get_field_values reader "40"
      let sub := parse_subfields (fields40.getD loanIndex [])
      let sub := dictDel sub 'C'
      let sub := dictSet sub 'F' env.nowDate
      let sub := dictSet sub '2' env.nowTime
      let sub := dictSet sub 'R' env.locationCode
      let sub := dictSet sub 'I' env.username
      let fields40 := listSet fields40 loanIndex (format_subfields sub)
      let _reader := setField reader "40" fields40
      if !env.writeReaderOk then (false, "Ошибка закрытия выдачи")
      else
        let _bookWrite :=
          match env.bookByRfid with
          | some book =>
            some (setField book "910"
              (setExemplarStatus0 (get_field_values book "910") rfid), env.writeBookOk)
          | none => none
        (true, "Книга возвращена")

/-! ### Calibration store — `bookcabinet/mechanics/calibration.py` -/

/-- The `positions` section of the calibration JSON document; each key may be
absent. -/
structure PositionsSection where
  x : Option (List Int)
  y : Option (List Int)
deriving DecidableEq

/-- The `kinematics` section; each sign key may be absent. -/
structure KinSection where
  x_plus_dir_a : Option Int
  x_plus_dir_b : Option Int
  y_plus_dir_a : Option Int
  y_plus_dir_b : Option Int
deriving DecidableEq

/-- The `speeds` section. -/
structure SpeedsSection where
  xy : Option Int
  tray : Option Int
  acceleration : Option Int
deriving DecidableEq

/-- The `servos` section. -/
structure ServosSection where
  lock1_open : Option Int
  lock1_close : Option Int
  lock2_open : Option Int
  lock2_close : Option Int
deriving DecidableEq

/-- A `grab_front` / `grab_back` section. -/
structure GrabSection where
  extend1 : Option Int
  retract : Option Int
  extend2 : Option Int
deriving DecidableEq

/-- The `tray` section (not validated, but merged by
`update_with_validation`). -/
structure TraySection where
  extend_steps : Option Int
  retract_steps : Option Int
deriving DecidableEq

/-- The `blocked_cells` section: side name to per-column row lists (not
validated, but merged). -/
abbrev BlockedSection := List (String × List (String × List Int))

/-- A calibration JSON document (`calibration.py` `_default_data` shape);
every section may be absent.  The `version`/`timestamp`/`window` entries play
no part in validation or merging of the claimed operations. -/
structure CalibDoc where
  positions : Option PositionsSection
  kinematics : Option KinSection
  speeds : Option SpeedsSection
  servos : Option ServosSection
  grab_front : Option GrabSection
  grab_back : Option GrabSection
  tray : Option TraySection
  blocked_cells : Option BlockedSection
deriving DecidableEq

/-- Python `x == sorted(x)` for an integer list: true exactly when the list is
non-decreasing. -/
def isSortedAsc : List Int → Bool
  | [] => true
  | [_] => true
  | a :: b :: rest => decide (a ≤ b) && isSortedAsc (b :: rest)

/-- The `positions.x` rules of `Calibration.validate`
(`calibration.py` lines 196-207): length 3, each entry nonnegative, sorted
ascending.  (The `> 15000` check only appends a warning, not an error.) -/
def positionsXValid (xs : List Int) : Bool :=
  decide (xs.length = 3) && xs.all (fun v => decide (0 ≤ v)) && isSortedAsc xs

/-- The `positions.y` rules (`calibration.py` lines 209-218): length 21, each
entry nonnegative, sorted ascending. -/
def positionsYValid (ys : List Int) : Bool :=
  decide (ys.length = 21) && ys.all (fun v => decide (0 ≤ v)) && isSortedAsc ys

/-- The `kinematics` rules (`calibration.py` lines 220-224), via `signOk`. -/
def kinValid (k : KinSection) : Bool :=
  signOk k.x_plus_dir_a && signOk k.x_plus_dir_b &&
  signOk k.y_plus_dir_a && signOk k.y_plus_dir_b

/-- The `speeds` rules (`calibration.py` lines 226-232); an absent key reads
as `0` and fails the lower bound. -/
def speedsValid (s : SpeedsSection) : Bool :=
  (decide (0 < s.xy.getD 0) && decide (s.xy.getD 0 ≤ 10000)) &&
  (decide (0 < s.tray.getD 0) && decide (s.tray.getD 0 ≤ 10000)) &&
  (decide (0 < s.acceleration.getD 0) && decide (s.acceleration.getD 0 ≤ 20000))

/-- The `servos` rules (`calibration.py` lines 234-238); an absent key reads
as `-1` and fails. -/
def servosValid (s : ServosSection) : Bool :=
  (decide (0 ≤ s.lock1_open.getD (-1)) && decide (s.lock1_open.getD (-1) ≤ 180)) &&
  (decide (0 ≤ s.lock1_close.getD (-1)) && decide (s.lock1_close.getD (-1) ≤ 180)) &&
  (decide (0 ≤ s.lock2_open.getD (-1)) && decide (s.lock2_open.getD (-1) ≤ 180)) &&
  (decide (0 ≤ s.lock2_close.getD (-1)) && decide (s.lock2_close.getD (-1) ≤ 180))

/-- One grab parameter: must be present and in `[0, 10000]`
(`calibration.py` lines 248-254). -/
def grabParamOk : Option Int → Bool
  | some v => decide (0 ≤ v) && decide (v ≤ 10000)
  | none => false

/-- A whole `grab_front` / `grab_back` section: must be present with all three
keys valid (`calibration.py` lines 240-254). -/
def grabValid : Option GrabSection → Bool
  | some g => grabParamOk g.extend1 && grabParamOk g.retract && grabParamOk g.extend2
  | none => false

/-- `Calibration.validate` (`calibration.py` lines 188-260): `True` exactly
when the `errors` list stays empty.  Absent `positions` keys read as `[]` and
fail the length checks. -/
def validate (d : CalibDoc) : Bool :=
  let pos := d.positions.getD { x := none, y := none }
  positionsXValid (pos.x.getD []) &&
  positionsYValid (pos.y.getD []) &&
  kinValid (d.kinematics.getD { x_plus_dir_a := none, x_plus_dir_b := none,
                                y_plus_dir_a := none, y_plus_dir_b := none }) &&
  speedsValid (d.speeds.getD { xy := none, tray := none, acceleration := none }) &&
  servosValid (d.servos.getD { lock1_open := none, lock1_close := none,
                               lock2_open := none, lock2_close := none }) &&
  grabValid d.grab_front &&
  grabValid d.grab_back

/-- Section-level dict merge `{**old, **new}`: keys of the update override. -/
def mergePositions (o n : PositionsSection) : PositionsSection :=
  { x := n.x.or o.x, y := n.y.or o.y }

/-- Merge of the `kinematics` section. -/
def mergeKin (o n : KinSection) : KinSection :=
  { x_plus_dir_a := n.x_plus_dir_a.or o.x_plus_dir_a,
    x_plus_dir_b := n.x_plus_dir_b.or o.x_plus_dir_b,
    y_plus_dir_a := n.y_plus_dir_a.or o.y_plus_dir_a,
    y_plus_dir_b := n.y_plus_dir_b.or o.y_plus_dir_b }

/-- Merge of the `speeds` section. -/
def mergeSpeeds (o n : SpeedsSection) : SpeedsSection :=
  { xy := n.xy.or o.xy, tray := n.tray.or o.tray,
    acceleration := n.acceleration.or o.acceleration }

/-- Merge of the `servos` section. -/
def mergeServos (o n : ServosSection) : ServosSection :=
  { lock1_open := n.lock1_open.or o.lock1_open,
    lock1_close := n.lock1_close.or o.lock1_close,
    lock2_open := n.lock2_open.or o.lock2_open,
    lock2_close := n.lock2_close.or o.lock2_close }

/-- Merge of a grab section. -/
def mergeGrab (o n : GrabSection) : GrabSection :=
  { extend1 := n.extend1.or o.extend1, retract := n.retract.or o.retract,
    extend2 := n.extend2.or o.extend2 }

/-- Merge of the `tray` section. -/
def mergeTray (o n : TraySection) : TraySection :=
  { extend_steps := n.extend_steps.or o.extend_steps,
    retract_steps := n.retract_steps.or o.retract_steps }

/-- Merge of `blocked_cells`: `{**old, **new}` at side level (an updated side
replaces the whole per-side dictionary). -/
def mergeBlocked (o n : BlockedSection) : BlockedSection :=
  (o.filter (fun p => !(n.any (fun q => q.1 = p.1)))) ++ n

/-- One key of the merge loop of `update_with_validation`
(`calibration.py` lines 264-271): when the update carries the key and both
values are dicts, merge shallowly; when the current document lacks the key,
take the update value; when the update lacks the key, keep the old value. -/
def mergeSection {α : Type} (f : α → α → α) (o n : Option α) : Option α :=
  match n with
  | none => o
  | some nv =>
    match o with
    | none => some nv
    | some ov => some (f ov nv)

/-- The merged document of `update_with_validation`
(`calibration.py` lines 264-271). -/
def mergeDoc (o n : CalibDoc) : CalibDoc :=
  { positions := mergeSection mergePositions o.positions n.positions,
    kinematics := mergeSection mergeKin o.kinematics n.kinematics,
    speeds := mergeSection mergeSpeeds o.speeds n.speeds,
    servos := mergeSection mergeServos o.servos n.servos,
    grab_front := mergeSection mergeGrab o.grab_front n.grab_front,
    grab_back := mergeSection mergeGrab o.grab_back n.grab_back,
    tray := mergeSection mergeTray o.tray n.tray,
    blocked_cells := mergeSection mergeBlocked o.blocked_cells n.blocked_cells }

/-- State of the `Calibration` singleton: the in-memory document `self.data`
and the persisted `calibration.json` content. -/
structure CalibState where
  data : CalibDoc
  file : CalibDoc
deriving DecidableEq

/-- `Calibration.save` (`calibration.py` lines 107-112): persist the
in-memory document. -/
def calibSave (st : CalibState) : CalibState :=
  { st with file := st.data }

/-- `Calibration.update_with_validation` (`calibration.py` lines 262-280):
merge the payload into a copy, validate the merged copy, and only on success
assign it to `self.data` and save. -/
def update_with_validation (st : CalibState) (payload : CalibDoc) :
    Bool × CalibState :=
  let merged := mergeDoc st.data payload
  if validate merged then (true, calibSave { st with data := merged })
  else (false, st)

/-- The validation path of `Calibration.import_json`
(`calibration.py` lines 149-159), after a successful JSON parse: validate the
payload and only on success replace `self.data` wholesale and save. -/
def import_json (st : CalibState) (payload : CalibDoc) : Bool × CalibState :=
  if validate payload then (true, calibSave { st with data := payload })
  else (false, st)

/-- `Calibration._default_data` (`calibration.py` lines 37-87). -/
def defaultCalibDoc : CalibDoc :=
  { positions := some { x := some [1891, 6392, 10894],
                        y := some ((List.range 21).map (fun i => (i : Int) * 423)) },
    kinematics := some { x_plus_dir_a := some 1, x_plus_dir_b := some (-1),
                         y_plus_dir_a := some 1, y_plus_dir_b := some 1 },
    speeds := some { xy := some 4000, tray := some 2000, acceleration := some 8000 },
    servos := some { lock1_open := some 0, lock1_close := some 95,
                     lock2_open := some 0, lock2_close := some 95 },
    grab_front := some { extend1 := some 1900, retract := some 1500, extend2 := some 3100 },
    grab_back := some { extend1 := some 1900, retract := some 1500, extend2 := some 3100 },
    tray := some { extend_steps := some 5000, retract_steps := some 5000 },
    blocked_cells := some
      [("front", [("1", [7, 8, 9, 10, 11, 12, 13, 14, 15, 16, 17, 18])]),
       ("back", [("0", [19, 20]), ("1", [19, 20]), ("2", [20])])] }

/-! ### TAKE / GIVE control flow — `bookcabinet/mechanics/algorithms.py` -/

/-- Boolean outcomes of the fallible sub-steps of one `Algorithms.take_shelf`
run (`algorithms.py` lines 360-423), in step order.  The servo latch and
shutter actuations of steps 4, 6, 8, 11 and 13 appear in the source as bare
`await` statements whose values are not even bound, so they need no fields
here; the listed tray outcomes are computed by `_safe_tray_extend` /
`_safe_tray_retract` (which emit error codes 20-23 on failure). -/
structure TakeOutcomes where
  trayRetractedAtStart : Bool
  preRetract : Bool
  moveToCell : Bool
  extend1 : Bool
  retract1 : Bool
  extend2 : Bool
  fullRetract : Bool
  moveToWindow : Bool
  windowExtend : Bool
deriving DecidableEq

/-- `Algorithms.take_shelf` (`algorithms.py` lines 360-423), exception-free
run.  Steps 1 and 3-9 and 12 call their sub-operations without testing the
returned boolean; only the two `_safe_move_xy` calls (steps 2 and 10) are
tested and can make the algorithm return `False`. -/
def take_shelf (o : TakeOutcomes) : Bool :=
  let _step1 := if !o.trayRetractedAtStart then o.preRetract else true
  if !o.moveToCell then false
  else
    let _step3 := o.extend1
    let _step5 := o.retract1
    let _step7 := o.extend2
    let _step9 := o.fullRetract
    if !o.moveToWindow then false
    else
      let _step12 := o.windowExtend
      true

/-- Boolean outcomes of the fallible sub-steps of one `Algorithms.give_shelf`
run (`algorithms.py` lines 425-481), in step order; the latch and shutter
actuations (steps 1, 3, 6, 8, 10) are bare `await` statements in the source. -/
structure GiveOutcomes where
  trayRetract : Bool
  moveToCell : Bool
  extendInsert : Bool
  midRetract : Bool
  extendRelease : Bool
  fullRetract : Bool
deriving DecidableEq

/-- `Algorithms.give_shelf` (`algorithms.py` lines 425-481), exception-free
run.  Only the single `_safe_move_xy` call (step 4) is tested; the tray
sub-steps 2, 5, 7, 9 and 11 are called without testing the returned boolean. -/
def give_shelf (o : GiveOutcomes) : Bool :=
  let _step2 := o.trayRetract
  if !o.moveToCell then false
  else
    let _step5 := o.extendInsert
    let _step7 := o.midRetract
    let _step9 := o.extendRelease
    let _step11 := o.fullRetract
    true

/-! ### Concrete instances used by witnesses and counterexamples -/

/-- Raw readings with every switch at 0% except `x_end`, whose open slot
floats at 50% HIGH — the electrically floating behaviour the sensor module's
own header documents for an UNtriggered TCST2103 slot. -/
def floatingXEnd : SensorPercents :=
  { x_begin := 0, x_end := 50, y_begin := 0, y_end := 0,
    tray_begin := 0, tray_end := 0 }

/-- A calibration-valid sign map that differs from the default in the
direction of motor A for X+. -/
def flippedKin : Kinematics :=
  { x_plus_dir_a := -1, x_plus_dir_b := 1, y_plus_dir_a := 1, y_plus_dir_b := 1 }

/-- A calibration-valid sign map with all four signs `+1`. -/
def allOnesKin : Kinematics :=
  { x_plus_dir_a := 1, x_plus_dir_b := 1, y_plus_dir_a := 1, y_plus_dir_b := 1 }

/-- A calibration update payload whose `positions.y` has only 20 entries. -/
def badCalibPayload : CalibDoc :=
  { positions := some { x := none, y := some (List.replicate 20 (0 : Int)) },
    kinematics := none, speeds := none, servos := none,
    grab_front := none, grab_back := none, tray := none, blocked_cells := none }

/-- Calibration state holding the default document, in memory and on disk. -/
def defaultCalibState : CalibState :=
  { data := defaultCalibDoc, file := defaultCalibDoc }

/-- A book record whose single `910` exemplar has `^a = 0` (on shelf) and
`^h = ABCD`. -/
def returnedBookRecord : IrbisRecord :=
  { fields := [("910", ["^a0^b12345^hABCD".data])] }

/-- The exemplar view `find_exemplar_by_rfid` extracts from
`returnedBookRecord` for RFID `ABCD`. -/
def returnedExemplar : Exemplar :=
  { status := "0".data, inventory := "12345".data, date := [], location := [],
    rfid := "ABCD".data, raw := "^a0^b12345^hABCD".data }

/-- A `return_book` environment where the `"HIN="` reader search finds nobody
but the book record is found with its exemplar already at status `0`. -/
def alreadyReturnedEnv : ReturnEnv :=
  { readerWithBook := none, bookByRfid := some returnedBookRecord,
    writeReaderOk := true, writeBookOk := true,
    nowDate := "20260101".data, nowTime := "120000".data,
    locationCode := "KNIGOMAT".data, username := "robot".data }

/-! ## Theorems -/

/-- Helper: a 50%-HIGH reading keeps the debounced filter state clear: the
hysteresis selects `desired = false` (50 ≤ 95), so a clear state never
transitions. -/
theorem update_state_fifty_keeps_clear (st : FilterState) (h : st.state = false) :
    (update_state st 50).state = false := by
  simp [update_state, SENSOR_THRESHOLD_HIGH, SENSOR_THRESHOLD_LOW, h]

/-- C1.  CODE BUG.  The safe-move supervisor does not poll the filtered
(hysteresis-and-debounce) sensor state: it reads the raw percent dictionary of
`sensors.read_all()` and treats any nonzero percentage as a tripped switch.
With the carriage at `(0,0)` commanded to waypoint `(100,0)` (an X+ move) and
the `x_end` slot open and floating at 50% HIGH, the supervisor emits error
code 10 and rejects the move, although the sensor filter — after any number
of consecutive such reads — reports `x_end` as not triggered, so per the
claim the move should proceed. -/
theorem safe_move_rejects_on_raw_percent :
    preWaypointError10 0 0 100 0 floatingXEnd = true ∧
    ∀ n, (filterAfterReads 50 n).state = false := by
  refine ⟨by decide, ?_⟩
  intro n
  induction n with
  | zero => rfl
  | succ n ih => exact update_state_fifty_keeps_clear _ ih

/-- C2.  CODE BUG.  The homing loop of `init_home` has no step budget: with a
limit switch that never asserts (every raw read 0) and no stop request, the
loop is still running after any finite number of 100-step increments — it
never terminates, and in particular never returns the fatal homing failure
the specification requires. -/
theorem init_home_loop_never_ends_without_limit :
    ∀ (fuel n : Nat) (pos : Int),
      init_home_axis_loop (fun _ => 0) (fun _ => false) fuel n pos = none := by
  intro fuel
  induction fuel with
  | zero => intro n pos; rfl
  | succ fuel ih => intro n pos; simpa [init_home_axis_loop] using ih (n + 1) (pos - 100)

/-- C3 counterexample.  For the calibration-valid sign map `flippedKin`
(every sign in `{-1, 1}`), the per-motor steps emitted by `Motors.move_xy`
for `(Δx, Δy) = (1, 0)` differ from `CoreXY.calculate_ab_steps`: the motor
driver hard-codes `(dx + dy, -dx + dy)` and never consults the calibrated
signs. -/
theorem move_xy_steps_ne_calibrated_corexy :
    kinValid { x_plus_dir_a := some (-1), x_plus_dir_b := some 1,
               y_plus_dir_a := some 1, y_plus_dir_b := some 1 } = true ∧
    motors_ab_steps 1 0 ≠ calculate_ab_steps flippedKin 1 0 := by
  decide

/-- C3 amended.  The per-motor step counts of `Motors.move_xy` equal the
CoreXY translation taken with the DEFAULT direction-sign map
`(d_ax, d_bx, d_ay, d_by) = (1, -1, 1, 1)` — i.e. `(Δx + Δy, -Δx + Δy)` —
for every delta; the calibrated signs are not consulted by the motor driver. -/
theorem move_xy_steps_eq_default_corexy (dx dy : Int) :
    motors_ab_steps dx dy = calculate_ab_steps defaultKinematics dx dy := by
  simp only [motors_ab_steps, calculate_ab_steps, defaultKinematics,
    Prod.mk.injEq]
  constructor <;> ring

/-- C3 amended witness. -/
theorem move_xy_steps_eq_default_corexy_witness :
    motors_ab_steps 3 5 = calculate_ab_steps defaultKinematics 3 5 :=
  move_xy_steps_eq_default_corexy 3 5

/-- C4 counterexample.  A `stop()` request arriving before the very first
pulse of an in-flight `move_xy` from `(0,0)` to `(1000,0)` neither suspends
the motion nor makes the call fail: all 1000 pulse pairs are emitted, the
position is committed, and the call returns `True`. -/
theorem stop_does_not_suspend_move :
    move_xy { x := 0, y := 0, isMoving := false } 1000 0 (some 0) =
      (true, { x := 1000, y := 0, isMoving := false }, 1000) := by
  decide

/-- C4 amended.  `Motors.stop()` clears the busy flag and forces the STEP
lines low, but it does not suspend an in-flight `move_xy`: whenever the
driver is not busy at entry, the call emits its full
`max(|steps_a|, |steps_b|)` pulse burst, commits the target position and
returns `True`, for every possible timing of a concurrent stop request.
Cancellation is cooperative and takes effect only between waypoints of the
safe-move supervisor (error code 11). -/
theorem move_xy_ignores_stop_request (x y tx ty : Int) (stopAt : Option Nat) :
    move_xy { x := x, y := y, isMoving := false } tx ty stopAt =
      (true, { x := tx, y := ty, isMoving := false },
       max ((tx - x) + (ty - y)).natAbs (-(tx - x) + (ty - y)).natAbs) := by
  rfl

/-- C5 counterexample.  With the calibration-valid all-`+1` sign map and
`(Δx, Δy) = (1, 0)` — whose sums `Δx+Δy = 1` and `Δx−Δy = 1` have matching
parity — the round trip gives `(0, 1)`, not `(1, 0)`:
`inverse_kinematics` hard-codes the inversion of the default sign map and
ignores the calibrated signs. -/
theorem corexy_round_trip_fails_nondefault :
    kinValid { x_plus_dir_a := some 1, x_plus_dir_b := some 1,
               y_plus_dir_a := some 1, y_plus_dir_b := some 1 } = true ∧
    (1 + 0 : Int).emod 2 = (1 - 0 : Int).emod 2 ∧
    inverse_kinematics (calculate_ab_steps allOnesKin 1 0).1
      (calculate_ab_steps allOnesKin 1 0).2 ≠ (1, 0) := by
  decide

/-- C5 amended.  With the DEFAULT direction-sign map `(1, -1, 1, 1)` the
CoreXY round trip is exact for every integer delta (no parity condition is
needed: both intermediate sums are automatically even):
`inverse_kinematics (calculate_ab_steps Δx Δy) = (Δx, Δy)`. -/
theorem corexy_round_trip_default_signs (dx dy : Int) :
    inverse_kinematics (calculate_ab_steps defaultKinematics dx dy).1
      (calculate_ab_steps defaultKinematics dx dy).2 = (dx, dy) := by
  simp only [inverse_kinematics, calculate_ab_steps, defaultKinematics]
  have ha : dx * 1 + dy * 1 - (dx * -1 + dy * 1) = 2 * dx := by ring
  have hb : dx * 1 + dy * 1 + (dx * -1 + dy * 1) = 2 * dy := by ring
  rw [ha, hb, Int.mul_fdiv_cancel_left dx (by norm_num),
      Int.mul_fdiv_cancel_left dy (by norm_num)]

/-- C5 amended witness. -/
theorem corexy_round_trip_default_signs_witness :
    inverse_kinematics (calculate_ab_steps defaultKinematics 7 (-4)).1
      (calculate_ab_steps defaultKinematics 7 (-4)).2 = (7, -4) :=
  corexy_round_trip_default_signs 7 (-4)

/-- C10.  In `take_shelf` and `give_shelf` the boolean results of the
intermediate tray extend/retract sub-steps (and the latch/shutter actuations,
which are not even bound) are never tested: the result of an exception-free
run equals the conjunction of the `_safe_move_xy` outcomes alone, so a
failure of any tray or latch sub-step (error codes 20-23) leaves the control
flow — and the returned value — unchanged. -/
theorem take_give_ignore_tray_latch_failures (o : TakeOutcomes) (g : GiveOutcomes) :
    take_shelf o = (o.moveToCell && o.moveToWindow) ∧
    give_shelf g = g.moveToCell := by
  constructor
  · rcases o with ⟨t0, pr, mc, e1, r1, e2, fr, mw, we⟩
    cases mc <;> cases mw <;> rfl
  · rcases g with ⟨tr, mc, ei, mr, er, fr⟩
    cases mc <;> rfl

/-- C8.  A calibration update or import whose (merged) payload fails
validation reports failure and leaves both the in-memory document and the
persisted file exactly as they were: `update_with_validation` and
`import_json` validate a merged copy before assigning and saving. -/
theorem calibration_validation_never_mutates (st : CalibState) (p : CalibDoc) :
    (validate (mergeDoc st.data p) = false →
        update_with_validation st p = (false, st)) ∧
    (validate p = false → import_json st p = (false, st)) := by
  constructor <;> intro h <;> simp [update_with_validation, import_json, h]

/-- C8 witness: importing or merging a payload whose `positions.y` has 20
entries into the default calibration is rejected and mutates nothing. -/
theorem calibration_validation_never_mutates_witness :
    update_with_validation defaultCalibState badCalibPayload =
      (false, defaultCalibState) ∧
    import_json defaultCalibState badCalibPayload = (false, defaultCalibState) :=
  ⟨(calibration_validation_never_mutates defaultCalibState badCalibPayload).1
      (by decide),
   (calibration_validation_never_mutates defaultCalibState badCalibPayload).2
      (by decide)⟩

/-- C9.  When the `"HIN="` reader lookup of `return_book` finds no reader but
the book record has an exemplar whose `^h` matches the RFID at status `"0"`,
the call returns idempotent success with the "already returned" message
instead of an error. -/
theorem return_book_already_returned_idempotent (env : ReturnEnv)
    (rfid : List Char) (book : IrbisRecord) (ex : Exemplar)
    (h1 : env.readerWithBook = none) (h2 : env.bookByRfid = some book)
    (h3 : find_exemplar_by_rfid book rfid = some ex)
    (h4 : ex.status = "0".data) :
    return_book env rfid = (true, "Книга уже возвращена") := by
  simp [return_book, h1, h2, h3, h4]

/-- C9 witness: concrete environment with the reader search empty and the
book exemplar `^a0^b12345^hABCD` at status 0 for RFID `ABCD`. -/
theorem return_book_already_returned_idempotent_witness :
    return_book alreadyReturnedEnv "ABCD".data = (true, "Книга уже возвращена") :=
  return_book_already_returned_idempotent alreadyReturnedEnv "ABCD".data
    returnedBookRecord returnedExemplar (by rfl) (by rfl) (by decide) (by rfl)

/-- Helper: hex characters are fixed points of `Char.toUpper`. -/
theorem toUpper_of_isHexUpper {c : Char} (h : isHexUpper c = true) :
    c.toUpper = c := by
  simp only [isHexUpper, Bool.or_eq_true, decide_eq_true_eq] at h
  casesm* _ ∨ _ <;> subst_vars <;> decide

/-- Helper: hex characters are not separator characters. -/
theorem not_sep_of_isHexUpper {c : Char} (h : isHexUpper c = true) :
    isSepChar c = false := by
  simp only [isHexUpper, Bool.or_eq_true, decide_eq_true_eq] at h
  casesm* _ ∨ _ <;> subst_vars <;> decide

/-- Helper: non-separator characters are not whitespace. -/
theorem not_ws_of_not_sep {c : Char} (h : isSepChar c = false) :
    isPyWhitespace c = false := by
  cases hw : isPyWhitespace c
  · rfl
  · simp [isSepChar, hw] at h

/-- Helper: `dropWhile` is the identity on a list none of whose elements
satisfy the predicate. -/
theorem dropWhile_eq_self_of_all_false {p : Char → Bool} :
    ∀ {l : List Char}, (∀ c ∈ l, p c = false) → l.dropWhile p = l
  | [], _ => rfl
  | c :: rest, h => by
      simp [List.dropWhile_cons, h c (by simp)]

/-- Helper: `pyStrip` is the identity on a whitespace-free list. -/
theorem pyStrip_eq_self {l : List Char}
    (h : ∀ c ∈ l, isPyWhitespace c = false) : pyStrip l = l := by
  unfold pyStrip
  rw [dropWhile_eq_self_of_all_false h,
      dropWhile_eq_self_of_all_false (fun c hc => h c (List.mem_reverse.mp hc)),
      List.reverse_reverse]

/-- Helper: mapping `Char.toUpper` over a list of its fixed points. -/
theorem map_toUpper_eq_self {l : List Char} (h : ∀ c ∈ l, c.toUpper = c) :
    l.map Char.toUpper = l := by
  conv_rhs => rw [← List.map_id l]
  exact List.map_congr_left h

/-- Helper: `strip0X` is the identity on an all-hex list (which cannot start
with `0X` since `X` is not a hex character). -/
theorem strip0X_eq_self {l : List Char} (h : ∀ c ∈ l, isHexUpper c = true) :
    strip0X l = l := by
  unfold strip0X
  split
  · exact absurd (h 'X' (by simp)) (by decide)
  · rfl

/-- Helper: filtering out separators is the identity on a separator-free
list. -/
theorem filter_not_sep_eq_self {l : List Char}
    (h : ∀ c ∈ l, isSepChar c = false) :
    l.filter (fun c => !(isSepChar c)) = l :=
  List.filter_eq_self.mpr (fun c hc => by simp [h c hc])

/-- Helper: the hex filter is the identity on an all-hex list. -/
theorem filter_hex_eq_self {l : List Char} (h : ∀ c ∈ l, isHexUpper c = true) :
    l.filter isHexUpper = l :=
  List.filter_eq_self.mpr h

/-- Helper: a successful `normalize_rfid` returns a nonempty all-hex
string. -/
theorem normalize_rfid_output {l n : List Char}
    (h : normalize_rfid l = some n) :
    n ≠ [] ∧ ∀ c ∈ n, isHexUpper c = true := by
  simp only [normalize_rfid] at h
  split at h
  · exact absurd h (by simp)
  · split at h
    · exact absurd h (by simp)
    · rename_i hne
      obtain rfl : _ = n := Option.some.inj h
      exact ⟨hne, fun c hc => (List.mem_filter.mp hc).2⟩

/-- Helper: `normalize_rfid` is the identity (up to `some`) on nonempty
all-hex strings; in particular it is idempotent. -/
theorem normalize_rfid_of_hexUpper {n : List Char} (hne : n ≠ [])
    (hhex : ∀ c ∈ n, isHexUpper c = true) : normalize_rfid n = some n := by
  have hsep : ∀ c ∈ n, isSepChar c = false :=
    fun c hc => not_sep_of_isHexUpper (hhex c hc)
  have hws : ∀ c ∈ n, isPyWhitespace c = false :=
    fun c hc => not_ws_of_not_sep (hsep c hc)
  have hup : ∀ c ∈ n, c.toUpper = c :=
    fun c hc => toUpper_of_isHexUpper (hhex c hc)
  simp only [normalize_rfid]
  rw [if_neg hne, pyStrip_eq_self hws, map_toUpper_eq_self hup,
      filter_not_sep_eq_self hsep, strip0X_eq_self hhex,
      filter_hex_eq_self hhex, if_neg hne]

/-- Helper: `insert_every2` of a nonempty list is nonempty. -/
theorem insert_every2_ne_nil {sep : Char} :
    ∀ {l : List Char}, l ≠ [] → insert_every2 sep l ≠ []
  | [], h => absurd rfl h
  | [_], _ => by simp [insert_every2]
  | [_, _], _ => by simp [insert_every2]
  | _ :: _ :: _ :: _, _ => by simp [insert_every2]

/-- Helper: every character of `insert_every2 sep l` is the separator or a
character of `l`. -/
theorem mem_insert_every2 {sep c : Char} :
    ∀ {l : List Char}, c ∈ insert_every2 sep l → c = sep ∨ c ∈ l
  | [], h => Or.inr h
  | [_], h => Or.inr h
  | [_, _], h => Or.inr h
  | a :: b :: d :: rest, h => by
      simp only [insert_every2, List.mem_cons] at h
      rcases h with rfl | rfl | rfl | h
      · exact Or.inr (by simp)
      · exact Or.inr (by simp)
      · exact Or.inl rfl
      · rcases mem_insert_every2 h with h1 | h1
        · exact Or.inl h1
        · simp only [List.mem_cons] at h1 ⊢
          tauto

/-- Helper: removing separators from `insert_every2 sep l` recovers `l` when
`l` itself is separator-free. -/
theorem filter_insert_every2 {sep : Char} (hsep : isSepChar sep = true) :
    ∀ {l : List Char}, (∀ c ∈ l, isSepChar c = false) →
      (insert_every2 sep l).filter (fun c => !(isSepChar c)) = l
  | [], _ => rfl
  | [a], h => by
      simp [insert_every2, List.filter_cons, h a (by simp)]
  | [a, b], h => by
      simp [insert_every2, List.filter_cons, h a (by simp), h b (by simp)]
  | a :: b :: d :: rest, h => by
      have ih := filter_insert_every2 hsep (l := d :: rest)
        (fun c hc => h c (by simp only [List.mem_cons] at hc ⊢; tauto))
      simp only [insert_every2, List.filter_cons, h a (by simp),
        h b (by simp), hsep] at ih ⊢
      simp [ih]

/-- Helper: `normalize_rfid` recovers the bare hex string from its
separator-joined rendition. -/
theorem normalize_insert_every2 {n : List Char} (sep : Char)
    (hsep : isSepChar sep = true) (hsepWs : isPyWhitespace sep = false)
    (hsepUp : sep.toUpper = sep) (hne : n ≠ [])
    (hhex : ∀ c ∈ n, isHexUpper c = true) :
    normalize_rfid (insert_every2 sep n) = some n := by
  have hsepN : ∀ c ∈ n, isSepChar c = false :=
    fun c hc => not_sep_of_isHexUpper (hhex c hc)
  have hws : ∀ c ∈ insert_every2 sep n, isPyWhitespace c = false := by
    intro c hc
    rcases mem_insert_every2 hc with rfl | hc
    · exact hsepWs
    · exact not_ws_of_not_sep (hsepN c hc)
  have hup : ∀ c ∈ insert_every2 sep n, c.toUpper = c := by
    intro c hc
    rcases mem_insert_every2 hc with rfl | hc
    · exact hsepUp
    · exact toUpper_of_isHexUpper (hhex c hc)
  simp only [normalize_rfid]
  rw [if_neg (insert_every2_ne_nil hne), pyStrip_eq_self hws,
      map_toUpper_eq_self hup, filter_insert_every2 hsep hsepN,
      strip0X_eq_self hhex, filter_hex_eq_self hhex, if_neg hne]

/-- C7 counterexample.  `make_uid_variants` is NOT closed under
normalization: for the input UID `FF` the produced decimal variant `255`
normalizes to `255`, not to the normalized input `FF`. -/
theorem uid_decimal_variant_not_closed :
    "255".data ∈ make_uid_variants "FF".data ∧
    normalize_rfid "FF".data = some "FF".data ∧
    normalize_rfid "255".data = some "255".data ∧
    "255".data ≠ "FF".data := by
  decide

/-- C7 amended.  Closure under normalization holds for the separator
variants: for every input UID with normalized form `n`, the variant `n`
itself and the variants obtained by inserting `:` or `-` every two characters
all normalize back to `n` (the byte-reversed and decimal variants need not). -/
theorem uid_separator_variants_closed (uid n : List Char)
    (h : normalize_rfid uid = some n) :
    normalize_rfid n = some n ∧
    normalize_rfid (insert_every2 ':' n) = some n ∧
    normalize_rfid (insert_every2 '-' n) = some n := by
  obtain ⟨hne, hhex⟩ := normalize_rfid_output h
  exact ⟨normalize_rfid_of_hexUpper hne hhex,
    normalize_insert_every2 ':' (by decide) (by decide) (by decide) hne hhex,
    normalize_insert_every2 '-' (by decide) (by decide) (by decide) hne hhex⟩

/-- C7 amended witness, at the UID `ab:cd` with normalized form `ABCD`. -/
theorem uid_separator_variants_closed_witness :
    normalize_rfid "ABCD".data = some "ABCD".data ∧
    normalize_rfid (insert_every2 ':' "ABCD".data) = some "ABCD".data ∧
    normalize_rfid (insert_every2 '-' "ABCD".data) = some "ABCD".data :=
  uid_separator_variants_closed "ab:cd".data "ABCD".data (by decide)

/-- Helper: the first point of a subdivided leg is its start. -/
theorem legPoint_zero (s e : Int) (k : Nat) (hk : 1 ≤ k) :
    legPoint s e k 0 = s := by
  have hK : ((k : Int)) ≠ 0 := by exact_mod_cast Nat.one_le_iff_ne_zero.mp hk
  simp [legPoint, Int.mul_tdiv_cancel s hK]

/-- Helper: the `k`-th point of a subdivided leg is its end. -/
theorem legPoint_last (s e : Int) (k : Nat) (hk : 1 ≤ k) :
    legPoint s e k k = e := by
  have hK : ((k : Int)) ≠ 0 := by exact_mod_cast Nat.one_le_iff_ne_zero.mp hk
  have h : s * (k : Int) + (e - s) * (k : Int) = e * (k : Int) := by ring
  simp only [legPoint, h, Int.mul_tdiv_cancel e hK]

/-- Helper: consecutive points of a subdivided leg with nonnegative endpoints
and leg length below `2000*(k+1)` are at most 4000 steps apart. -/
theorem legPoint_step_bound (s e : Int) (k : Nat) (hs : 0 ≤ s) (he : 0 ≤ e)
    (hk : 1 ≤ k) (hd : (((e - s).natAbs : Int)) < 2000 * ((k : Int) + 1)) :
    ∀ i : Nat, i < k →
      (legPoint s e k (i + 1) - legPoint s e k i).natAbs ≤ 4000 := by
  intro i hik
  have hK1 : (1 : Int) ≤ (k : Int) := by exact_mod_cast hk
  have hKpos : (0 : Int) < (k : Int) := by omega
  have hiK : ((i : Int)) + 1 ≤ (k : Int) := by exact_mod_cast hik
  have hann : 0 ≤ s * (k : Int) + (e - s) * (i : Int) := by
    nlinarith [mul_nonneg hs (by omega : (0 : Int) ≤ (k : Int) - (i : Int)),
      mul_nonneg he (by positivity : (0 : Int) ≤ ((i : Int)))]
  have hbnn : 0 ≤ s * (k : Int) + (e - s) * ((i : Int) + 1) := by
    nlinarith [mul_nonneg hs (by omega : (0 : Int) ≤ (k : Int) - ((i : Int) + 1)),
      mul_nonneg he (by positivity : (0 : Int) ≤ ((i : Int) + 1))]
  have hcast : ((i + 1 : Nat) : Int) = (i : Int) + 1 := by push_cast; ring
  have hta : legPoint s e k i =
      (s * (k : Int) + (e - s) * (i : Int)) / (k : Int) := by
    simp only [legPoint]
    exact Int.tdiv_eq_ediv hann (by omega)
  have htb : legPoint s e k (i + 1) =
      (s * (k : Int) + (e - s) * ((i : Int) + 1)) / (k : Int) := by
    simp only [legPoint, hcast]
    exact Int.tdiv_eq_ediv hbnn (by omega)
  set a := s * (k : Int) + (e - s) * (i : Int) with ha
  set b := s * (k : Int) + (e - s) * ((i : Int) + 1) with hb
  have hqa := Int.ediv_add_emod a (k : Int)
  have hqb := Int.ediv_add_emod b (k : Int)
  have hra0 : 0 ≤ a % (k : Int) := Int.emod_nonneg a (by omega)
  have hraK : a % (k : Int) < (k : Int) := Int.emod_lt_of_pos a hKpos
  have hrb0 : 0 ≤ b % (k : Int) := Int.emod_nonneg b (by omega)
  have hrbK : b % (k : Int) < (k : Int) := Int.emod_lt_of_pos b hKpos
  have hdiff : b - a = e - s := by rw [ha, hb]; ring
  have hKD : (k : Int) * (b / (k : Int) - a / (k : Int)) =
      (e - s) + a % (k : Int) - b % (k : Int) := by
    have h1 : (k : Int) * (b / (k : Int)) = b - b % (k : Int) := by linarith [hqb]
    have h2 : (k : Int) * (a / (k : Int)) = a - a % (k : Int) := by linarith [hqa]
    have h3 : (k : Int) * (b / (k : Int) - a / (k : Int)) =
        (k : Int) * (b / (k : Int)) - (k : Int) * (a / (k : Int)) := by ring
    rw [h3, h1, h2]
    linarith [hdiff]
  have hes1 : e - s ≤ 2000 * (k : Int) + 1999 := by omega
  have hes2 : -(2000 * (k : Int) + 1999) ≤ e - s := by omega
  have hDub : b / (k : Int) - a / (k : Int) < 4001 := by
    by_contra hcon
    push_neg at hcon
    have h1 : (k : Int) * 4001 ≤ (k : Int) * (b / (k : Int) - a / (k : Int)) :=
      mul_le_mul_of_nonneg_left hcon (by omega)
    linarith [hKD]
  have hDlb : -4001 < b / (k : Int) - a / (k : Int) := by
    by_contra hcon
    push_neg at hcon
    have h1 : (k : Int) * (b / (k : Int) - a / (k : Int)) ≤ (k : Int) * (-4001) :=
      mul_le_mul_of_nonneg_left hcon (by omega)
    linarith [hKD]
  rw [hta, htb]
  omega

/-- Helper: a chain of points whose consecutive members are within `b` yields
a true `spaced1` check along `range'`. -/
theorem spaced1_map_range (b : Nat) (f : Nat → Int) :
    ∀ (n j : Nat), (∀ i, j ≤ i → i < j + n → (f (i + 1) - f i).natAbs ≤ b) →
      spaced1 b (f j) ((List.range' (j + 1) n).map f) = true := by
  intro n
  induction n with
  | zero => intro j _; rfl
  | succ n ih =>
    intro j H
    rw [List.range'_succ, List.map_cons]
    simp only [spaced1, Bool.and_eq_true, decide_eq_true_eq]
    refine ⟨H j le_rfl (by omega), ?_⟩
    have := ih (j + 1) (fun i h1 h2 => H i (by omega) (by omega))
    simpa using this

/-- Helper: the full subdivided leg (interior points then the endpoint) is
spaced within 4000 steps. -/
theorem leg_spaced1 (s e : Int) (k : Nat) (hs : 0 ≤ s) (he : 0 ≤ e)
    (hk : 1 ≤ k) (hd : (((e - s).natAbs : Int)) < 2000 * ((k : Int) + 1)) :
    spaced1 4000 s (legIntermediates s e k ++ [e]) = true := by
  obtain ⟨m, rfl⟩ : ∃ m, k = m + 1 := ⟨k - 1, by omega⟩
  have hlist : legIntermediates s e (m + 1) ++ [e] =
      (List.range' 1 (m + 1)).map (legPoint s e (m + 1)) := by
    rw [List.range'_concat, List.map_append, legIntermediates]
    have h2 : legPoint s e (m + 1) (1 + m) = e := by
      have h1 : 1 + m = m + 1 := by omega
      rw [h1]
      exact legPoint_last s e (m + 1) (by omega)
    simp [h2]
  have hmain := spaced1_map_range 4000 (legPoint s e (m + 1)) (m + 1) 0
    (fun i h1 h2 =>
      legPoint_step_bound s e (m + 1) hs he (by omega) hd i (by omega))
  rw [legPoint_zero s e (m + 1) (by omega)] at hmain
  rw [hlist]
  simpa using hmain

/-- Helper: lifting a one-dimensional spacing chain to waypoints with a
constant X coordinate. -/
theorem spacedWithin_of_spaced1_y (b : Nat) (cx : Int) :
    ∀ (ys : List Int) (x0 y0 : Int), spaced1 b y0 ys = true →
      (cx - x0).natAbs ≤ b →
      spacedWithin b (x0, y0) (ys.map (fun iy => (cx, iy))) = true := by
  intro ys
  induction ys with
  | nil => intro x0 y0 _ _; rfl
  | cons y ys ih =>
    intro x0 y0 h hx
    simp only [spaced1, Bool.and_eq_true, decide_eq_true_eq] at h
    simp only [List.map_cons, spacedWithin, Bool.and_eq_true, decide_eq_true_eq]
    exact ⟨⟨hx, h.1⟩, ih cx y h.2 (by simp)⟩

/-- Helper: lifting a one-dimensional spacing chain to waypoints with a
constant Y coordinate. -/
theorem spacedWithin_of_spaced1_x (b : Nat) (cy : Int) :
    ∀ (xs : List Int) (x0 y0 : Int), spaced1 b x0 xs = true →
      (cy - y0).natAbs ≤ b →
      spacedWithin b (x0, y0) (xs.map (fun ix => (ix, cy))) = true := by
  intro xs
  induction xs with
  | nil => intro x0 y0 _ _; rfl
  | cons x xs ih =>
    intro x0 y0 h hy
    simp only [spaced1, Bool.and_eq_true, decide_eq_true_eq] at h
    simp only [List.map_cons, spacedWithin, Bool.and_eq_true, decide_eq_true_eq]
    exact ⟨⟨h.1, hy⟩, ih x cy h.2 (by simp)⟩

/-- Helper: the spacing check splits along an append, restarting from the
last waypoint of the first part. -/
theorem spacedWithin_append (b : Nat) :
    ∀ (l1 l2 : List (Int × Int)) (p : Int × Int),
      spacedWithin b p (l1 ++ l2) =
        (spacedWithin b p l1 && spacedWithin b (l1.getLastD p) l2) := by
  intro l1
  induction l1 with
  | nil => intro l2 p; simp [spacedWithin]
  | cons q l1 ih =>
    intro l2 p
    simp only [List.cons_append, List.append_eq, spacedWithin,
      List.getLastD_cons, ih, Bool.and_assoc]

/-- C6 counterexample.  For start `(0,0)` and end `(0,3000)` — whose Y delta
is well above `MAX_DIAGONAL_STEP = 500` — `plan_path` subdivides the Y leg
into `max(1, 3000 // 2000) = 1` part, i.e. not at all: the single leg spans
3000 steps, so consecutive waypoints are NOT spaced within 2000 steps. -/
theorem plan_path_spacing_exceeds_2000 :
    MAX_DIAGONAL_STEP < ((3000 : Int) - 0).natAbs ∧
    spacedWithin 2000 (0, 0) (plan_path 0 0 0 3000) = false := by
  decide

/-- Helper: building a whole-path spacing check from its two parts. -/
theorem spacedWithin_append_of (b : Nat) (p : Int × Int)
    (l1 l2 : List (Int × Int)) (h1 : spacedWithin b p l1 = true)
    (h2 : spacedWithin b (l1.getLastD p) l2 = true) :
    spacedWithin b p (l1 ++ l2) = true := by
  rw [spacedWithin_append, h1, h2]
  rfl

/-- Helper: the step-count bound `legLength < 2000 * (max(1, legLength/2000) + 1)`
used by the leg-spacing argument, as an integer inequality. -/
theorem legCount_bound (d : Nat) :
    ((d : Int)) < 2000 * ((max 1 (d / 2000) : Nat) + 1 : Int) := by
  have h1 : d / 2000 ≤ max 1 (d / 2000) := le_max_right _ _
  have h2 : d < 2000 * (max 1 (d / 2000) + 1) := by omega
  exact_mod_cast h2

/-- C6 amended.  For every start and end with nonnegative step coordinates,
`plan_path` emits a path that first traverses Y (waypoints at `x = sx`), then
X (waypoints at `y = ey`), ending at the target; each long leg is subdivided
into `max(1, legLength // 2000)` equal parts, so consecutive waypoints
(starting from the start position) are spaced at most 4000 steps apart on
each axis — not 2000: a leg of length up to 3999 steps is not subdivided at
all. -/
theorem plan_path_l_shape_spacing (sx sy ex ey : Int)
    (hsx : 0 ≤ sx) (hsy : 0 ≤ sy) (hex : 0 ≤ ex) (hey : 0 ≤ ey) :
    spacedWithin 4000 (sx, sy) (plan_path sx sy ex ey) = true ∧
    ∃ yP xP, plan_path sx sy ex ey = yP ++ (xP ++ [(ex, ey)]) ∧
      (∀ p ∈ yP, p.1 = sx) ∧ (∀ p ∈ xP, p.2 = ey) := by
  by_cases hdir : (ex - sx).natAbs < MAX_DIAGONAL_STEP ∧
      (ey - sy).natAbs < MAX_DIAGONAL_STEP
  · have hpp : plan_path sx sy ex ey = [(ex, ey)] := by
      simp only [plan_path]
      rw [if_pos hdir]
    have hdx : (ex - sx).natAbs < 500 := hdir.1
    have hdy : (ey - sy).natAbs < 500 := hdir.2
    refine ⟨?_, [], [], by simp [hpp], by simp, by simp⟩
    rw [hpp]
    simp only [spacedWithin, Bool.and_eq_true, decide_eq_true_eq]
    exact ⟨⟨by omega, by omega⟩, trivial⟩
  · have hpp : plan_path sx sy ex ey =
        (if MAX_DIAGONAL_STEP < (ey - sy).natAbs then
          ((legIntermediates sy ey (max 1 ((ey - sy).natAbs / 2000))).map
            (fun iy => (sx, iy))) ++ [(sx, ey)]
         else []) ++
        ((if MAX_DIAGONAL_STEP < (ex - sx).natAbs then
          (legIntermediates sx ex (max 1 ((ex - sx).natAbs / 2000))).map
            (fun ix => (ix, ey))
         else []) ++ [(ex, ey)]) := by
      simp only [plan_path]
      rw [if_neg hdir]
    have hYpairs : MAX_DIAGONAL_STEP < (ey - sy).natAbs →
        spacedWithin 4000 (sx, sy)
          ((legIntermediates sy ey (max 1 ((ey - sy).natAbs / 2000))).map
            (fun iy => (sx, iy)) ++ [(sx, ey)]) = true := by
      intro _
      have h := spacedWithin_of_spaced1_y 4000 sx
        (legIntermediates sy ey (max 1 ((ey - sy).natAbs / 2000)) ++ [ey]) sx sy
        (leg_spaced1 sy ey _ hsy hey (le_max_left _ _) (legCount_bound _))
        (by simp)
      rw [List.map_append] at h
      simpa using h
    have hXpairs : ∀ y0 : Int, (ey - y0).natAbs ≤ 4000 →
        MAX_DIAGONAL_STEP < (ex - sx).natAbs →
        spacedWithin 4000 (sx, y0)
          ((legIntermediates sx ex (max 1 ((ex - sx).natAbs / 2000))).map
            (fun ix => (ix, ey)) ++ [(ex, ey)]) = true := by
      intro y0 hy0 _
      have h := spacedWithin_of_spaced1_x 4000 ey
        (legIntermediates sx ex (max 1 ((ex - sx).natAbs / 2000)) ++ [ex]) sx y0
        (leg_spaced1 sx ex _ hsx hex (le_max_left _ _) (legCount_bound _)) hy0
      rw [List.map_append] at h
      simpa using h
    by_cases hy : MAX_DIAGONAL_STEP < (ey - sy).natAbs <;>
      by_cases hx : MAX_DIAGONAL_STEP < (ex - sx).natAbs
    · -- both legs long
      rw [hpp, if_pos hy, if_pos hx]
      refine ⟨?_, _, _, rfl, ?_, ?_⟩
      · refine spacedWithin_append_of 4000 (sx, sy) _ _ (hYpairs hy) ?_
        have hlast : (((legIntermediates sy ey (max 1 ((ey - sy).natAbs / 2000))).map
            (fun iy => (sx, iy))) ++ [(sx, ey)]).getLastD (sx, sy) = (sx, ey) := by
          simp
        rw [hlast]
        exact hXpairs ey (by simp) hx
      · intro p hp
        rcases List.mem_append.mp hp with hp | hp
        · rcases List.mem_map.mp hp with ⟨iy, _, rfl⟩; rfl
        · simp only [List.mem_singleton] at hp; subst hp; rfl
      · intro p hp
        rcases List.mem_map.mp hp with ⟨ix, _, rfl⟩; rfl
    · -- long Y leg, short X leg
      rw [hpp, if_pos hy, if_neg hx]
      have hdx : (ex - sx).natAbs ≤ 500 := by
        have : ¬(500 < (ex - sx).natAbs) := hx
        omega
      refine ⟨?_, _, [], rfl, ?_, by simp⟩
      · refine spacedWithin_append_of 4000 (sx, sy) _ _ (hYpairs hy) ?_
        have hlast : (((legIntermediates sy ey (max 1 ((ey - sy).natAbs / 2000))).map
            (fun iy => (sx, iy))) ++ [(sx, ey)]).getLastD (sx, sy) = (sx, ey) := by
          simp
        rw [hlast]
        simp only [List.nil_append, spacedWithin, Bool.and_eq_true,
          decide_eq_true_eq]
        exact ⟨⟨by omega, by omega⟩, trivial⟩
      · intro p hp
        rcases List.mem_append.mp hp with hp | hp
        · rcases List.mem_map.mp hp with ⟨iy, _, rfl⟩; rfl
        · simp only [List.mem_singleton] at hp; subst hp; rfl
    · -- short Y leg, long X leg
      rw [hpp, if_neg hy, if_pos hx]
      have hdy : (ey - sy).natAbs ≤ 500 := by
        have : ¬(500 < (ey - sy).natAbs) := hy
        omega
      refine ⟨?_, [], _, rfl, by simp, ?_⟩
      · rw [List.nil_append]
        exact hXpairs sy (by omega) hx
      · intro p hp
        rcases List.mem_map.mp hp with ⟨ix, _, rfl⟩; rfl
    · -- both legs short (but not both strictly below the threshold)
      rw [hpp, if_neg hy, if_neg hx]
      have hdx : (ex - sx).natAbs ≤ 500 := by
        have : ¬(500 < (ex - sx).natAbs) := hx
        omega
      have hdy : (ey - sy).natAbs ≤ 500 := by
        have : ¬(500 < (ey - sy).natAbs) := hy
        omega
      refine ⟨?_, [], [], rfl, by simp, by simp⟩
      simp only [List.nil_append, spacedWithin, Bool.and_eq_true,
        decide_eq_true_eq]
      exact ⟨⟨by omega, by omega⟩, trivial⟩

/-- C6 amended witness, on the cabinet move from the origin to column 2,
top row (9000, 8460): the path is planned Y-first then X with every
consecutive pair within 4000 steps per axis. -/
theorem plan_path_l_shape_spacing_witness :
    spacedWithin 4000 (0, 0) (plan_path 0 0 9000 8460) = true ∧
    ∃ yP xP, plan_path 0 0 9000 8460 = yP ++ (xP ++ [(9000, 8460)]) ∧
      (∀ p ∈ yP, p.1 = 0) ∧ (∀ p ∈ xP, p.2 = 8460) :=
  plan_path_l_shape_spacing 0 0 9000 8460 (by decide) (by decide) (by decide)
    (by decide)

end BookCabinet
